import Mathlib

/-!
Verification of the ArcVote confidential voting system.

Two layers are embedded from the source:
* `Circuits` — the pure encrypted instructions of `encrypted-ixs/src/lib.rs`
  (`init_tallies`, `cast_vote`, `reveal_results`).  Machine `u64` values are
  modelled as `Nat` with explicit reduction modulo `2 ^ 64` wherever the Rust
  arithmetic can wrap.
* `Voting` — the on-chain Anchor program of
  `programs/private-voting/src/lib.rs`: the `ProposalAccount` record, the
  voter-record guard, the instruction handlers and their verified callbacks,
  and a small trace semantics (`exec` / `run`) in which a failed instruction
  reverts the whole transaction (Solana semantics), leaving state unchanged.
-/

namespace Circuits

/-- Encrypted vote tallies for up to 4 options (`VoteTallies` in the circuit).
All five counters are `u64`, modelled as `Nat` reduced mod `2 ^ 64`. -/
structure VoteTallies where
  option_0 : Nat
  option_1 : Nat
  option_2 : Nat
  option_3 : Nat
  total_votes : Nat
deriving DecidableEq, Repr

/-- A voter's quadratic credit allocation across the four options
(`VoteAllocation` in the circuit); each field is a `u64`. -/
structure VoteAllocation where
  v0 : Nat
  v1 : Nat
  v2 : Nat
  v3 : Nat
deriving DecidableEq, Repr

/-- `init_tallies`: all vote counters start at zero. -/
def init_tallies : VoteTallies :=
  { option_0 := 0, option_1 := 0, option_2 := 0, option_3 := 0, total_votes := 0 }

/-- `cast_vote` circuit: compute the quadratic cost
`v0*v0 + v1*v1 + v2*v2 + v3*v3` in `u64` arithmetic and, when it is at most
100 voice credits, add each allocation to its counter and the allocation sum
to `total_votes`; otherwise return the tallies unchanged.  Every `u64`
operation wraps, hence the explicit `% 2 ^ 64`. -/
def cast_vote (alloc : VoteAllocation) (tallies : VoteTallies) : VoteTallies :=
  let cost := (alloc.v0 * alloc.v0 + alloc.v1 * alloc.v1 +
               alloc.v2 * alloc.v2 + alloc.v3 * alloc.v3) % 2 ^ 64
  if cost ≤ 100 then
    { option_0 := (tallies.option_0 + alloc.v0) % 2 ^ 64
      option_1 := (tallies.option_1 + alloc.v1) % 2 ^ 64
      option_2 := (tallies.option_2 + alloc.v2) % 2 ^ 64
      option_3 := (tallies.option_3 + alloc.v3) % 2 ^ 64
      total_votes :=
        (tallies.total_votes +
          (alloc.v0 + alloc.v1 + alloc.v2 + alloc.v3) % 2 ^ 64) % 2 ^ 64 }
  else
    tallies

/-- Plaintext results returned by the reveal circuit (`RevealedResults`). -/
structure RevealedResults where
  option_0 : Nat
  option_1 : Nat
  option_2 : Nat
  option_3 : Nat
  total_votes : Nat
  winner : Nat
deriving DecidableEq, Repr

set_option linter.unusedVariables false in
/-- `reveal_results` circuit: decrypt the tallies and pick the winner by a
sequential scan with a strict `>` against the running maximum, so ties go to
the lowest index.  (`max3` mirrors the final `max_votes` assignment of the
source, which is never read afterwards.) -/
def reveal_results (tallies : VoteTallies) : RevealedResults :=
  let max0 := tallies.option_0
  let winner0 : Nat := 0
  let max1 := if tallies.option_1 > max0 then tallies.option_1 else max0
  let winner1 := if tallies.option_1 > max0 then 1 else winner0
  let max2 := if tallies.option_2 > max1 then tallies.option_2 else max1
  let winner2 := if tallies.option_2 > max1 then 2 else winner1
  let max3 := if tallies.option_3 > max2 then tallies.option_3 else max2
  let winner3 := if tallies.option_3 > max2 then 3 else winner2
  { option_0 := tallies.option_0
    option_1 := tallies.option_1
    option_2 := tallies.option_2
    option_3 := tallies.option_3
    total_votes := tallies.total_votes
    winner := winner3 }

/-- Counter of option `j` (`0 ≤ j < 4`) in a tally, used to state winner
properties uniformly over indices. -/
def optCount (tallies : VoteTallies) (j : Nat) : Nat :=
  match j with
  | 0 => tallies.option_0
  | 1 => tallies.option_1
  | 2 => tallies.option_2
  | _ => tallies.option_3

/-- A simple one-option ballot for option `c`, encoded as the quadratic
allocation that puts 1 effective vote on option `c` and 0 elsewhere. -/
def simpleVote (c : Nat) : VoteAllocation :=
  { v0 := if c = 0 then 1 else 0
    v1 := if c = 1 then 1 else 0
    v2 := if c = 2 then 1 else 0
    v3 := if c = 3 then 1 else 0 }

/-- Fold a list of simple ballots (option indices) into a tally with the
`cast_vote` circuit, starting from a given tally. -/
def foldVotes (t : VoteTallies) (votes : List Nat) : VoteTallies :=
  votes.foldl (fun acc c => cast_vote (simpleVote c) acc) t

end Circuits

namespace Voting

/-- The error codes declared by the program (`ErrorCode` enum). -/
inductive ErrorCode where
  | InvalidAuthority
  | AbortedComputation
  | ClusterNotSet
  | VotingPeriodEnded
  | VotingPeriodNotEnded
  | AlreadyVoted
  | InvalidChoice
  | ProposalAlreadyFinalized
  | QuorumNotMet
deriving DecidableEq, Repr

/-- `ProposalAccount`: the durable on-chain proposal record.  Public keys are
modelled as `Nat` identifiers; the opaque encrypted tally `vote_state`
(`[[u8; 32]; 5]` of ciphertexts) is modelled as an opaque `List Nat` that the
program only ever stores and passes along, never inspects. -/
structure Proposal where
  id : Nat
  authority : Nat
  nonce : Nat
  title : String
  options : List String
  numOptions : Nat
  deadline : Int
  voiceCredits : Nat
  quorum : Nat
  isFinalized : Bool
  voterCount : Nat
  voteState : List Nat
deriving DecidableEq, Repr

/-- The typed output of `init_tallies` / `cast_vote` computations: a fresh
block of ciphertexts plus the encryption nonce (`o.ciphertexts`, `o.nonce`). -/
structure EncryptedOutput where
  ciphertexts : List Nat
  nonce : Nat
deriving DecidableEq, Repr

/-- The typed output of the `reveal_results` computation
(`field_0 .. field_4` are the plaintext `u64` counters, `field_5` the
winner index). -/
structure RevealOutput where
  field_0 : Nat
  field_1 : Nat
  field_2 : Nat
  field_3 : Nat
  field_4 : Nat
  field_5 : Nat
deriving DecidableEq, Repr

/-- Events emitted by the program (`VoteCastEvent`, `ResultsRevealedEvent`). -/
inductive Event where
  | voteCast (proposalId : Nat) (timestamp : Int) (voterCount : Nat)
  | resultsRevealed (proposalId o0 o1 o2 o3 total winner : Nat)
deriving DecidableEq, Repr

/-- The kinds of queued MPC computations a proposal can be waiting on. -/
inductive CompKind where
  | initT
  | vote
  | reveal
deriving DecidableEq, Repr

/-- `cast_vote` instruction handler.  The voter-record PDA is created with an
Anchor `init` constraint (`CastVote::voter_record`), which fails when the
record for `(proposal, voter)` already exists — that failure is the
double-vote guard and is surfaced here as `AlreadyVoted` (the error the
program declares for it); the framework account check runs before the handler
body, so it is tested first.  The body then requires `now < deadline`
(`VotingPeriodEnded`) and `!is_finalized` (`ProposalAlreadyFinalized`), and
on success records the voter and increments the `u32` voter counter.  The
encrypted allocation itself is opaque ciphertext: the handler performs no
validation of it (in particular none against `num_options`). -/
def cast_vote (p : Proposal) (records : List Nat) (voter : Nat) (now : Int) :
    Except ErrorCode (Proposal × List Nat) :=
  if voter ∈ records then
    Except.error ErrorCode.AlreadyVoted
  else if p.deadline ≤ now then
    Except.error ErrorCode.VotingPeriodEnded
  else if p.isFinalized then
    Except.error ErrorCode.ProposalAlreadyFinalized
  else
    Except.ok ({ p with voterCount := (p.voterCount + 1) % 2 ^ 32 }, voter :: records)

/-- `init_tallies_callback`: on verification failure return
`AbortedComputation` before touching anything; on success store the fresh
ciphertexts and nonce. -/
def init_tallies_callback (p : Proposal) (output : Option EncryptedOutput) :
    Except ErrorCode (Proposal × List Event) :=
  match output with
  | none => Except.error ErrorCode.AbortedComputation
  | some o =>
      Except.ok ({ p with voteState := o.ciphertexts, nonce := o.nonce }, [])

/-- `cast_vote_callback`: on verification failure return `AbortedComputation`
before touching anything; on success replace the opaque tally and nonce
(unconditionally — there is no finalization or deadline check here) and emit
a `VoteCastEvent`. -/
def cast_vote_callback (p : Proposal) (output : Option EncryptedOutput)
    (now : Int) : Except ErrorCode (Proposal × List Event) :=
  match output with
  | none => Except.error ErrorCode.AbortedComputation
  | some o =>
      Except.ok ({ p with voteState := o.ciphertexts, nonce := o.nonce },
        [Event.voteCast p.id now p.voterCount])

/-- `reveal_results` instruction handler: requires, in order, caller =
authority (`InvalidAuthority`), `now >= deadline` (`VotingPeriodNotEnded`),
`!is_finalized` (`ProposalAlreadyFinalized`) and `voter_count >= quorum`
(`QuorumNotMet`); on success it only queues the reveal computation and
mutates no proposal field. -/
def reveal_results (p : Proposal) (caller : Nat) (now : Int) :
    Except ErrorCode Unit :=
  if caller ≠ p.authority then
    Except.error ErrorCode.InvalidAuthority
  else if now < p.deadline then
    Except.error ErrorCode.VotingPeriodNotEnded
  else if p.isFinalized then
    Except.error ErrorCode.ProposalAlreadyFinalized
  else if p.voterCount < p.quorum then
    Except.error ErrorCode.QuorumNotMet
  else
    Except.ok ()

/-- `reveal_results_callback`: on verification failure return
`AbortedComputation`; on success set `is_finalized` and emit the plaintext
results event.  `vote_state` and `nonce` are not touched. -/
def reveal_results_callback (p : Proposal) (output : Option RevealOutput) :
    Except ErrorCode (Proposal × List Event) :=
  match output with
  | none => Except.error ErrorCode.AbortedComputation
  | some o =>
      Except.ok ({ p with isFinalized := true },
        [Event.resultsRevealed p.id o.field_0 o.field_1 o.field_2 o.field_3
          o.field_4 o.field_5])

/-- Full program state: the proposal account, the set of existing
voter-record PDAs (by voter key), and the queued computations awaiting a
callback, tagged by caller-chosen computation offset. -/
structure ProgState where
  proposal : Proposal
  voterRecords : List Nat
  pending : List (Nat × CompKind)
deriving DecidableEq, Repr

/-- `create_proposal`: allocate the proposal with the caller's parameters,
zero counters, `vote_state = [[0; 32]; 5]`, and queue the `init_tallies`
computation. -/
def create_proposal (id authority : Nat) (title : String)
    (options : List String) (numOptions : Nat) (deadline : Int)
    (voiceCredits quorum nonce : Nat) (offset : Nat) : ProgState :=
  { proposal :=
      { id := id, authority := authority, nonce := nonce, title := title
        options := options, numOptions := numOptions, deadline := deadline
        voiceCredits := voiceCredits, quorum := quorum, isFinalized := false
        voterCount := 0, voteState := List.replicate 5 0 }
    voterRecords := []
    pending := [(offset, CompKind.initT)] }

/-- One externally triggered transaction against the program. -/
inductive Op where
  | castVote (voter : Nat) (now : Int) (offset : Nat)
  | castVoteCallback (offset : Nat) (output : Option EncryptedOutput) (now : Int)
  | revealResults (caller : Nat) (now : Int) (offset : Nat)
  | revealCallback (offset : Nat) (output : Option RevealOutput)
  | initCallback (offset : Nat) (output : Option EncryptedOutput)
deriving DecidableEq, Repr

/-- Transaction semantics: each operation runs as one serializable unit; a
handler error aborts the transaction and reverts every account, so the state
is returned unchanged and no event is emitted.  A callback only runs when its
computation offset is actually queued (the MPC program invokes registered
callbacks once); on success the queued entry is consumed. -/
def exec (s : ProgState) (op : Op) : ProgState × List Event :=
  match op with
  | Op.castVote voter now offset =>
      match cast_vote s.proposal s.voterRecords voter now with
      | Except.error _ => (s, [])
      | Except.ok (p, r) =>
          ({ s with
              proposal := p, voterRecords := r,
              pending := (offset, CompKind.vote) :: s.pending }, [])
  | Op.castVoteCallback offset output now =>
      if (offset, CompKind.vote) ∈ s.pending then
        match cast_vote_callback s.proposal output now with
        | Except.error _ => (s, [])
        | Except.ok (p, evs) =>
            ({ s with
                proposal := p,
                pending := s.pending.erase (offset, CompKind.vote) }, evs)
      else (s, [])
  | Op.revealResults caller now offset =>
      match reveal_results s.proposal caller now with
      | Except.error _ => (s, [])
      | Except.ok _ =>
          ({ s with pending := (offset, CompKind.reveal) :: s.pending }, [])
  | Op.revealCallback offset output =>
      if (offset, CompKind.reveal) ∈ s.pending then
        match reveal_results_callback s.proposal output with
        | Except.error _ => (s, [])
        | Except.ok (p, evs) =>
            ({ s with
                proposal := p,
                pending := s.pending.erase (offset, CompKind.reveal) }, evs)
      else (s, [])
  | Op.initCallback offset output =>
      if (offset, CompKind.initT) ∈ s.pending then
        match init_tallies_callback s.proposal output with
        | Except.error _ => (s, [])
        | Except.ok (p, evs) =>
            ({ s with
                proposal := p,
                pending := s.pending.erase (offset, CompKind.initT) }, evs)
      else (s, [])

/-- Run a sequence of transactions, accumulating emitted events. -/
def run (s : ProgState) (ops : List Op) : ProgState × List Event :=
  ops.foldl (fun acc op =>
    let r := exec acc.1 op
    (r.1, acc.2 ++ r.2)) (s, [])

/-- A concrete proposal used to instantiate theorems with hypotheses:
authority 7, deadline 10, quorum 1, freshly created (no votes yet). -/
def sampleProposal : Proposal :=
  { id := 1, authority := 7, nonce := 5, title := "t"
    options := ["A", "B", "C", "D"], numOptions := 4, deadline := 10
    voiceCredits := 100, quorum := 1, isFinalized := false, voterCount := 0
    voteState := List.replicate 5 0 }

/-- Start of the race scenario: a fresh proposal with deadline 10 and
quorum 1, created with the `init_tallies` computation queued at offset 0. -/
def pendingVoteStart : ProgState :=
  create_proposal 1 7 "t" ["A", "B", "C", "D"] 4 10 100 1 5 0

/-- Race scenario transactions: the init callback lands; voter 42 casts a
vote at time 0 (queuing computation 1); the authority reveals at the
deadline (queuing computation 2); the reveal callback lands and finalizes
the proposal — all before the vote computation 1 has called back. -/
def pendingVoteOps : List Op :=
  [Op.initCallback 0 (some { ciphertexts := [1, 1, 1, 1, 1], nonce := 6 }),
   Op.castVote 42 0 1,
   Op.revealResults 7 10 2,
   Op.revealCallback 2 (some
     { field_0 := 1, field_1 := 0, field_2 := 0, field_3 := 0,
       field_4 := 1, field_5 := 0 })]

/-- The reachable state at the end of the race scenario: finalized, with the
vote computation 1 still pending. -/
def finalizedPendingState : ProgState :=
  (run pendingVoteStart pendingVoteOps).1

end Voting

/-! ### Claim theorems -/

/-- C1: when callback verification of a computation output fails, each of the
three callback handlers (`init_tallies_callback`, `cast_vote_callback`,
`reveal_results_callback`) fails with `AbortedComputation`, and at the
transaction level the proposal state is exactly as it was before the
callback — every field unchanged — and no event is emitted. -/
theorem claim_C1_aborted_callback_fail_closed
    (p : Voting.Proposal) (now : Int) (s : Voting.ProgState) (offset : Nat) :
    Voting.init_tallies_callback p none =
      Except.error Voting.ErrorCode.AbortedComputation ∧
    Voting.cast_vote_callback p none now =
      Except.error Voting.ErrorCode.AbortedComputation ∧
    Voting.reveal_results_callback p none =
      Except.error Voting.ErrorCode.AbortedComputation ∧
    Voting.exec s (Voting.Op.initCallback offset none) = (s, []) ∧
    Voting.exec s (Voting.Op.castVoteCallback offset none now) = (s, []) ∧
    Voting.exec s (Voting.Op.revealCallback offset none) = (s, []) := by
  refine ⟨rfl, rfl, rfl, ?_, ?_, ?_⟩ <;>
    simp [Voting.exec, Voting.init_tallies_callback, Voting.cast_vote_callback,
      Voting.reveal_results_callback]

/-- C3: for every allocation and tally, the circuit `cast_vote` computes
`cost = v0² + v1² + v2² + v3²` (in `u64` arithmetic) and, when `cost ≤ 100`,
returns the tally with each counter incremented by its allocation and
`total_votes` incremented by the allocation sum; otherwise it returns the
tally with every counter unchanged. -/
theorem claim_C3_quadratic_budget
    (a : Circuits.VoteAllocation) (t : Circuits.VoteTallies) :
    ((a.v0 ^ 2 + a.v1 ^ 2 + a.v2 ^ 2 + a.v3 ^ 2) % 2 ^ 64 ≤ 100 →
      Circuits.cast_vote a t =
        { option_0 := (t.option_0 + a.v0) % 2 ^ 64
          option_1 := (t.option_1 + a.v1) % 2 ^ 64
          option_2 := (t.option_2 + a.v2) % 2 ^ 64
          option_3 := (t.option_3 + a.v3) % 2 ^ 64
          total_votes :=
            (t.total_votes + (a.v0 + a.v1 + a.v2 + a.v3) % 2 ^ 64) % 2 ^ 64 }) ∧
    (100 < (a.v0 ^ 2 + a.v1 ^ 2 + a.v2 ^ 2 + a.v3 ^ 2) % 2 ^ 64 →
      Circuits.cast_vote a t = t) := by
  have hsq : ∀ n : Nat, n ^ 2 = n * n := fun n => by ring
  constructor
  · intro h
    rw [hsq, hsq, hsq, hsq] at h
    unfold Circuits.cast_vote
    rw [if_pos h]
  · intro h
    rw [hsq, hsq, hsq, hsq] at h
    unfold Circuits.cast_vote
    rw [if_neg (by omega)]

/-- C3 witness: a within-budget allocation (cost 30) is added to the tally;
an over-budget allocation (cost 121) leaves the tally unchanged. -/
theorem claim_C3_quadratic_budget_witness :
    Circuits.cast_vote ⟨1, 2, 3, 4⟩ ⟨0, 0, 0, 0, 0⟩ = ⟨1, 2, 3, 4, 10⟩ ∧
    Circuits.cast_vote ⟨11, 0, 0, 0⟩ ⟨1, 2, 3, 4, 10⟩ = ⟨1, 2, 3, 4, 10⟩ := by
  constructor
  · have h := (claim_C3_quadratic_budget ⟨1, 2, 3, 4⟩ ⟨0, 0, 0, 0, 0⟩).1 (by norm_num)
    rw [h]; decide
  · exact (claim_C3_quadratic_budget ⟨11, 0, 0, 0⟩ ⟨1, 2, 3, 4, 10⟩).2 (by norm_num)

/-- C9: the budget check runs in wrapping 64-bit arithmetic: the allocation
`(2^32, 2^32, 2^32, 2^32)` has a true quadratic cost of `2^66 > 100`, but the
`u64` computation wraps it to `0 ≤ 100`, so the circuit applies the vote to
the tally despite violating the budget. -/
theorem claim_C9_cost_wraps_mod_u64 :
    100 < 2 ^ 32 * 2 ^ 32 + 2 ^ 32 * 2 ^ 32 + 2 ^ 32 * 2 ^ 32 + 2 ^ 32 * 2 ^ 32 ∧
    (2 ^ 32 * 2 ^ 32 + 2 ^ 32 * 2 ^ 32 + 2 ^ 32 * 2 ^ 32 + 2 ^ 32 * 2 ^ 32) %
      2 ^ 64 = 0 ∧
    Circuits.cast_vote ⟨2 ^ 32, 2 ^ 32, 2 ^ 32, 2 ^ 32⟩ Circuits.init_tallies =
      ⟨2 ^ 32, 2 ^ 32, 2 ^ 32, 2 ^ 32, 2 ^ 34⟩ ∧
    Circuits.cast_vote ⟨2 ^ 32, 2 ^ 32, 2 ^ 32, 2 ^ 32⟩ Circuits.init_tallies ≠
      Circuits.init_tallies := by
  refine ⟨by norm_num, by norm_num, by decide, by decide⟩

/-- C10: neither the on-chain `cast_vote` handler nor the circuit validates
an allocation against the proposal's `num_options`: on a proposal created
with 2 options, a vote submission succeeds while allocating 5 credits to
option index 3, the circuit increments counter 3, and `reveal_results` —
which always scans all four counters — returns winner index 3 ≥ 2. -/
theorem claim_C10_no_num_options_validation :
    (∃ p r, Voting.cast_vote
      (Voting.create_proposal 1 7 "t" ["A", "B"] 2 10 100 1 5 0).proposal
      [] 42 0 = Except.ok (p, r)) ∧
    (Circuits.cast_vote ⟨0, 0, 0, 5⟩ Circuits.init_tallies).option_3 = 5 ∧
    (Circuits.reveal_results
      (Circuits.cast_vote ⟨0, 0, 0, 5⟩ Circuits.init_tallies)).winner = 3 ∧
    (Voting.create_proposal 1 7 "t" ["A", "B"] 2 10 100 1 5 0).proposal.numOptions ≤
      (Circuits.reveal_results
        (Circuits.cast_vote ⟨0, 0, 0, 5⟩ Circuits.init_tallies)).winner := by
  refine ⟨⟨_, _, rfl⟩, by decide, by decide, by decide⟩

/-- C2: after a voter's `cast_vote` on a proposal succeeds, a second
`cast_vote` by the same voter on that proposal always fails with
`AlreadyVoted` (the voter-record guard), and the rejected transaction leaves
the whole proposal state — in particular `vote_state`, `nonce` and
`voter_count` — unchanged and emits nothing. -/
theorem claim_C2_double_vote_rejected
    (s : Voting.ProgState) (v : Nat) (n1 n2 : Int) (off : Nat)
    (p1 : Voting.Proposal) (r1 : List Nat)
    (h : Voting.cast_vote s.proposal s.voterRecords v n1 = Except.ok (p1, r1)) :
    Voting.cast_vote p1 r1 v n2 = Except.error Voting.ErrorCode.AlreadyVoted ∧
    ∀ s2 : Voting.ProgState, s2.proposal = p1 → s2.voterRecords = r1 →
      Voting.exec s2 (Voting.Op.castVote v n2 off) = (s2, []) := by
  unfold Voting.cast_vote at h
  split_ifs at h with hmem hdl hfin
  obtain ⟨hp, hr⟩ := h
  refine ⟨?_, ?_⟩
  · unfold Voting.cast_vote
    rw [if_pos (List.mem_cons_self v s.voterRecords)]
  · intro s2 hs2p hs2r
    have hfail : Voting.cast_vote s2.proposal s2.voterRecords v n2 =
        Except.error Voting.ErrorCode.AlreadyVoted := by
      unfold Voting.cast_vote
      rw [if_pos (by rw [hs2r]; exact List.mem_cons_self v s.voterRecords)]
    simp [Voting.exec, hfail]

/-- C2 witness: voter 42 votes once on the sample proposal; the second
attempt fails with `AlreadyVoted`. -/
theorem claim_C2_double_vote_rejected_witness :
    Voting.cast_vote
      { Voting.sampleProposal with voterCount := 1 % 2 ^ 32 } [42] 42 1 =
      Except.error Voting.ErrorCode.AlreadyVoted :=
  (claim_C2_double_vote_rejected
    { proposal := Voting.sampleProposal, voterRecords := [], pending := [] }
    42 0 1 0 _ _ rfl).1

/-- C7: a `cast_vote` submission by a fresh voter at `now ≥ deadline` fails
with `VotingPeriodEnded`, and a `reveal_results` submission by the authority
at `now < deadline` fails with `VotingPeriodNotEnded`; in both cases the
transaction reverts, leaving the proposal state unchanged. -/
theorem claim_C7_deadline_gates
    (s : Voting.ProgState) (v caller : Nat) (now1 now2 : Int) (off1 off2 : Nat)
    (hv : v ∉ s.voterRecords) (h1 : s.proposal.deadline ≤ now1)
    (hc : caller = s.proposal.authority) (h2 : now2 < s.proposal.deadline) :
    Voting.cast_vote s.proposal s.voterRecords v now1 =
      Except.error Voting.ErrorCode.VotingPeriodEnded ∧
    Voting.exec s (Voting.Op.castVote v now1 off1) = (s, []) ∧
    Voting.reveal_results s.proposal caller now2 =
      Except.error Voting.ErrorCode.VotingPeriodNotEnded ∧
    Voting.exec s (Voting.Op.revealResults caller now2 off2) = (s, []) := by
  have hcv : Voting.cast_vote s.proposal s.voterRecords v now1 =
      Except.error Voting.ErrorCode.VotingPeriodEnded := by
    unfold Voting.cast_vote
    rw [if_neg hv, if_pos h1]
  have hrv : Voting.reveal_results s.proposal caller now2 =
      Except.error Voting.ErrorCode.VotingPeriodNotEnded := by
    unfold Voting.reveal_results
    rw [if_neg (by simp [hc]), if_pos h2]
  exact ⟨hcv, by simp [Voting.exec, hcv], hrv, by simp [Voting.exec, hrv]⟩

/-- C7 witness: on the sample proposal (deadline 10), a fresh vote at time 10
fails with `VotingPeriodEnded` and an authority reveal at time 0 fails with
`VotingPeriodNotEnded`, both leaving the state unchanged. -/
theorem claim_C7_deadline_gates_witness :
    Voting.cast_vote Voting.sampleProposal [] 42 10 =
      Except.error Voting.ErrorCode.VotingPeriodEnded ∧
    Voting.exec
      { proposal := Voting.sampleProposal, voterRecords := [], pending := [] }
      (Voting.Op.castVote 42 10 0) =
      ({ proposal := Voting.sampleProposal, voterRecords := [], pending := [] }, []) ∧
    Voting.reveal_results Voting.sampleProposal 7 0 =
      Except.error Voting.ErrorCode.VotingPeriodNotEnded ∧
    Voting.exec
      { proposal := Voting.sampleProposal, voterRecords := [], pending := [] }
      (Voting.Op.revealResults 7 0 1) =
      ({ proposal := Voting.sampleProposal, voterRecords := [], pending := [] }, []) :=
  claim_C7_deadline_gates
    { proposal := Voting.sampleProposal, voterRecords := [], pending := [] }
    42 7 10 0 0 1 (by simp) (by norm_num [Voting.sampleProposal]) rfl
    (by norm_num [Voting.sampleProposal])

/-- C8: a reveal by the authority, at or after the deadline, on a
non-finalized proposal fails with `QuorumNotMet` when
`voter_count < quorum`, and succeeds — submitting the reveal computation —
when `voter_count = quorum`. -/
theorem claim_C8_quorum_gate
    (s : Voting.ProgState) (caller : Nat) (now : Int) (off : Nat)
    (hc : caller = s.proposal.authority) (hd : s.proposal.deadline ≤ now)
    (hf : s.proposal.isFinalized = false) :
    (s.proposal.voterCount < s.proposal.quorum →
      Voting.reveal_results s.proposal caller now =
        Except.error Voting.ErrorCode.QuorumNotMet ∧
      Voting.exec s (Voting.Op.revealResults caller now off) = (s, [])) ∧
    (s.proposal.voterCount = s.proposal.quorum →
      Voting.reveal_results s.proposal caller now = Except.ok () ∧
      Voting.exec s (Voting.Op.revealResults caller now off) =
        ({ s with pending := (off, Voting.CompKind.reveal) :: s.pending }, [])) := by
  constructor
  · intro hq
    have hrv : Voting.reveal_results s.proposal caller now =
        Except.error Voting.ErrorCode.QuorumNotMet := by
      unfold Voting.reveal_results
      rw [if_neg (by simp [hc]), if_neg (by omega), if_neg (by simp [hf]),
        if_pos hq]
    exact ⟨hrv, by simp [Voting.exec, hrv]⟩
  · intro hq
    have hrv : Voting.reveal_results s.proposal caller now = Except.ok () := by
      unfold Voting.reveal_results
      rw [if_neg (by simp [hc]), if_neg (by omega), if_neg (by simp [hf]),
        if_neg (by omega)]
    exact ⟨hrv, by simp [Voting.exec, hrv]⟩

/-- C8 witness: on the sample proposal (quorum 1, deadline 10) the authority
reveal at time 10 fails with `QuorumNotMet` while no one has voted, and
succeeds once `voter_count = 1`. -/
theorem claim_C8_quorum_gate_witness :
    Voting.reveal_results Voting.sampleProposal 7 10 =
      Except.error Voting.ErrorCode.QuorumNotMet ∧
    Voting.reveal_results { Voting.sampleProposal with voterCount := 1 } 7 10 =
      Except.ok () :=
  ⟨((claim_C8_quorum_gate
      { proposal := Voting.sampleProposal, voterRecords := [], pending := [] }
      7 10 0 rfl (by norm_num [Voting.sampleProposal]) rfl).1 (by decide)).1,
   ((claim_C8_quorum_gate
      { proposal := { Voting.sampleProposal with voterCount := 1 },
        voterRecords := [], pending := [] }
      7 10 0 rfl (by norm_num [Voting.sampleProposal]) rfl).2 rfl).1⟩

/-- C5: for every tally, `reveal_results` returns as winner the index of the
maximum counter among options 0..3, with ties broken toward the lowest
index: the winner's count is at least every other count, and every option
with a strictly lower index has a strictly smaller count. -/
theorem claim_C5_winner_lowest_index_tie_break (t : Circuits.VoteTallies) :
    (Circuits.reveal_results t).winner < 4 ∧
    (∀ j, j < 4 →
      Circuits.optCount t j ≤
        Circuits.optCount t (Circuits.reveal_results t).winner) ∧
    (∀ j, j < (Circuits.reveal_results t).winner →
      Circuits.optCount t j <
        Circuits.optCount t (Circuits.reveal_results t).winner) := by
  unfold Circuits.reveal_results
  dsimp only
  split_ifs with h1 h2 h3 h4 h5 h6 h7 <;>
    refine ⟨by norm_num, fun j hj => ?_, fun j hj => ?_⟩ <;>
      interval_cases j <;>
        simp only [Circuits.optCount] <;> omega

/-- C5 witness: with counts `(5, 5, 0, 0)` the tie between options 0 and 1
is broken toward index 0, whose count is maximal. -/
theorem claim_C5_winner_lowest_index_tie_break_witness :
    (Circuits.reveal_results ⟨5, 5, 0, 0, 10⟩).winner = 0 ∧
    (∀ j, j < 4 →
      Circuits.optCount ⟨5, 5, 0, 0, 10⟩ j ≤
        Circuits.optCount ⟨5, 5, 0, 0, 10⟩
          (Circuits.reveal_results ⟨5, 5, 0, 0, 10⟩).winner) := by
  have h := claim_C5_winner_lowest_index_tie_break ⟨5, 5, 0, 0, 10⟩
  exact ⟨by decide, h.2.1⟩

/-- Helper for C6: the `cast_vote` circuit keeps every counter below
`2 ^ 64` when the input tally's counters are. -/
theorem cast_vote_fields_lt (a : Circuits.VoteAllocation)
    (t : Circuits.VoteTallies) (h0 : t.option_0 < 2 ^ 64)
    (h1 : t.option_1 < 2 ^ 64) (h2 : t.option_2 < 2 ^ 64)
    (h3 : t.option_3 < 2 ^ 64) (h4 : t.total_votes < 2 ^ 64) :
    (Circuits.cast_vote a t).option_0 < 2 ^ 64 ∧
    (Circuits.cast_vote a t).option_1 < 2 ^ 64 ∧
    (Circuits.cast_vote a t).option_2 < 2 ^ 64 ∧
    (Circuits.cast_vote a t).option_3 < 2 ^ 64 ∧
    (Circuits.cast_vote a t).total_votes < 2 ^ 64 := by
  have hU : (0 : Nat) < 2 ^ 64 := by norm_num
  unfold Circuits.cast_vote
  dsimp only
  split_ifs <;>
    exact ⟨by first | exact Nat.mod_lt _ hU | exact h0,
           by first | exact Nat.mod_lt _ hU | exact h1,
           by first | exact Nat.mod_lt _ hU | exact h2,
           by first | exact Nat.mod_lt _ hU | exact h3,
           by first | exact Nat.mod_lt _ hU | exact h4⟩

/-- Helper for C6: folding simple ballots with the `cast_vote` circuit turns
each counter into its previous value plus the number of ballots for that
option, and `total_votes` into its previous value plus the number of
ballots, all modulo `2 ^ 64`. -/
theorem foldVotes_counts (votes : List Nat) :
    ∀ t : Circuits.VoteTallies, (∀ c ∈ votes, c < 4) →
    t.option_0 < 2 ^ 64 → t.option_1 < 2 ^ 64 → t.option_2 < 2 ^ 64 →
    t.option_3 < 2 ^ 64 → t.total_votes < 2 ^ 64 →
    (Circuits.foldVotes t votes).option_0 = (t.option_0 + votes.count 0) % 2 ^ 64 ∧
    (Circuits.foldVotes t votes).option_1 = (t.option_1 + votes.count 1) % 2 ^ 64 ∧
    (Circuits.foldVotes t votes).option_2 = (t.option_2 + votes.count 2) % 2 ^ 64 ∧
    (Circuits.foldVotes t votes).option_3 = (t.option_3 + votes.count 3) % 2 ^ 64 ∧
    (Circuits.foldVotes t votes).total_votes =
      (t.total_votes + votes.length) % 2 ^ 64 := by
  induction votes with
  | nil =>
      intro t hv h0 h1 h2 h3 h4
      simp only [Circuits.foldVotes, List.foldl_nil, List.count_nil,
        List.length_nil, Nat.add_zero]
      exact ⟨(Nat.mod_eq_of_lt h0).symm, (Nat.mod_eq_of_lt h1).symm,
        (Nat.mod_eq_of_lt h2).symm, (Nat.mod_eq_of_lt h3).symm,
        (Nat.mod_eq_of_lt h4).symm⟩
  | cons c l ih =>
      intro t hv h0 h1 h2 h3 h4
      have hc : c < 4 := hv c (List.mem_cons_self c l)
      have hl : ∀ x ∈ l, x < 4 := fun x hx => hv x (List.mem_cons_of_mem c hx)
      have hstep : Circuits.foldVotes t (c :: l) =
          Circuits.foldVotes (Circuits.cast_vote (Circuits.simpleVote c) t) l := by
        simp [Circuits.foldVotes]
      obtain ⟨b0, b1, b2, b3, b4⟩ :=
        cast_vote_fields_lt (Circuits.simpleVote c) t h0 h1 h2 h3 h4
      obtain ⟨e0, e1, e2, e3, e4⟩ :=
        ih (Circuits.cast_vote (Circuits.simpleVote c) t) hl b0 b1 b2 b3 b4
      rw [hstep]
      interval_cases c <;>
        · refine ⟨?_, ?_, ?_, ?_, ?_⟩ <;>
            · first | rw [e0] | rw [e1] | rw [e2] | rw [e3] | rw [e4]
              simp only [Circuits.cast_vote, Circuits.simpleVote,
                List.count_cons, List.length_cons]
              norm_num <;> omega

/-- Helper for C6: when every ballot is a valid option index, the per-option
ballot counts partition the ballot list. -/
theorem count_partition (votes : List Nat) (hv : ∀ c ∈ votes, c < 4) :
    votes.count 0 + votes.count 1 + votes.count 2 + votes.count 3 =
      votes.length := by
  induction votes with
  | nil => simp
  | cons c l ih =>
      have hc : c < 4 := hv c (List.mem_cons_self c l)
      have ih' := ih fun x hx => hv x (List.mem_cons_of_mem c hx)
      interval_cases c <;> simp [List.count_cons] <;> omega

/-- C6: for every sequence of simple ballots (each choosing one option
index `< 4`, fewer than `2 ^ 64` of them), folding them through the
`cast_vote` circuit starting from `init_tallies` and then revealing yields,
for each option, exactly the number of ballots for that option, and the
per-option counts sum to the revealed total, which is the number of
ballots. -/
theorem claim_C6_simple_votes_tally_exact (votes : List Nat)
    (hv : ∀ c ∈ votes, c < 4) (hn : votes.length < 2 ^ 64) :
    (Circuits.reveal_results (Circuits.foldVotes Circuits.init_tallies votes)).option_0 =
      votes.count 0 ∧
    (Circuits.reveal_results (Circuits.foldVotes Circuits.init_tallies votes)).option_1 =
      votes.count 1 ∧
    (Circuits.reveal_results (Circuits.foldVotes Circuits.init_tallies votes)).option_2 =
      votes.count 2 ∧
    (Circuits.reveal_results (Circuits.foldVotes Circuits.init_tallies votes)).option_3 =
      votes.count 3 ∧
    (Circuits.reveal_results (Circuits.foldVotes Circuits.init_tallies votes)).total_votes =
      votes.length ∧
    (Circuits.reveal_results (Circuits.foldVotes Circuits.init_tallies votes)).option_0 +
      (Circuits.reveal_results (Circuits.foldVotes Circuits.init_tallies votes)).option_1 +
      (Circuits.reveal_results (Circuits.foldVotes Circuits.init_tallies votes)).option_2 +
      (Circuits.reveal_results (Circuits.foldVotes Circuits.init_tallies votes)).option_3 =
      (Circuits.reveal_results (Circuits.foldVotes Circuits.init_tallies votes)).total_votes := by
  have hU : (0 : Nat) < 2 ^ 64 := by norm_num
  obtain ⟨e0, e1, e2, e3, e4⟩ :=
    foldVotes_counts votes Circuits.init_tallies hv hU hU hU hU hU
  have hproj : ∀ u : Circuits.VoteTallies,
      (Circuits.reveal_results u).option_0 = u.option_0 ∧
      (Circuits.reveal_results u).option_1 = u.option_1 ∧
      (Circuits.reveal_results u).option_2 = u.option_2 ∧
      (Circuits.reveal_results u).option_3 = u.option_3 ∧
      (Circuits.reveal_results u).total_votes = u.total_votes :=
    fun u => ⟨rfl, rfl, rfl, rfl, rfl⟩
  obtain ⟨p0, p1, p2, p3, p4⟩ :=
    hproj (Circuits.foldVotes Circuits.init_tallies votes)
  have hc0 : votes.count 0 ≤ votes.length := List.count_le_length 0 votes
  have hc1 : votes.count 1 ≤ votes.length := List.count_le_length 1 votes
  have hc2 : votes.count 2 ≤ votes.length := List.count_le_length 2 votes
  have hc3 : votes.count 3 ≤ votes.length := List.count_le_length 3 votes
  have hpart := count_partition votes hv
  simp only [Circuits.init_tallies] at e0 e1 e2 e3 e4 p0 p1 p2 p3 p4 ⊢
  rw [p0, p1, p2, p3, p4, e0, e1, e2, e3, e4]
  refine ⟨by omega, by omega, by omega, by omega, by omega, by omega⟩

/-- C6 witness: the four ballots `[0, 1, 0, 3]` reveal counts
`(2, 1, 0, 1)` and total 4. -/
theorem claim_C6_simple_votes_tally_exact_witness :
    (Circuits.reveal_results
      (Circuits.foldVotes Circuits.init_tallies [0, 1, 0, 3])).option_0 = 2 ∧
    (Circuits.reveal_results
      (Circuits.foldVotes Circuits.init_tallies [0, 1, 0, 3])).option_3 = 1 ∧
    (Circuits.reveal_results
      (Circuits.foldVotes Circuits.init_tallies [0, 1, 0, 3])).total_votes = 4 := by
  have h := claim_C6_simple_votes_tally_exact [0, 1, 0, 3]
    (by decide) (by norm_num)
  refine ⟨?_, ?_, ?_⟩
  · have := h.1; simpa using this
  · have := h.2.2.2.1; simpa using this
  · have := h.2.2.2.2.1; simpa using this

/-- C4 counterexample: the claim that a finalized proposal's `vote_state` and
`nonce` are never touched again fails on a reachable state.  Starting from a
freshly created proposal, after init-callback, one vote submission (queuing
computation 1), reveal submission and reveal-callback, the proposal is
finalized while the vote computation 1 is still pending; its verified
callback then still replaces `vote_state` and `nonce`, because
`cast_vote_callback` performs no finalization check. -/
theorem claim_C4_counterexample :
    Voting.finalizedPendingState.proposal.isFinalized = true ∧
    (1, Voting.CompKind.vote) ∈ Voting.finalizedPendingState.pending ∧
    (Voting.exec Voting.finalizedPendingState
      (Voting.Op.castVoteCallback 1
        (some { ciphertexts := [9, 9, 9, 9, 9], nonce := 7 }) 11)).1.proposal.voteState ≠
      Voting.finalizedPendingState.proposal.voteState ∧
    (Voting.exec Voting.finalizedPendingState
      (Voting.Op.castVoteCallback 1
        (some { ciphertexts := [9, 9, 9, 9, 9], nonce := 7 }) 11)).1.proposal.nonce ≠
      Voting.finalizedPendingState.proposal.nonce := by
  refine ⟨rfl, by decide, by decide, by decide⟩

/-- C4 (amended): once `is_finalized` is true, no new submission is accepted
— `cast_vote` and `reveal_results` both fail, so no new computation that
would change `vote_state` or `nonce` can be queued — but a verified
vote-callback for a computation submitted before finalization is applied
unconditionally and still replaces `vote_state` and `nonce`. -/
theorem claim_C4_finalized_blocks_submissions_not_callbacks
    (s : Voting.ProgState) (v caller : Nat) (now : Int)
    (o : Voting.EncryptedOutput) (hf : s.proposal.isFinalized = true) :
    (∃ e, Voting.cast_vote s.proposal s.voterRecords v now = Except.error e) ∧
    (∃ e, Voting.reveal_results s.proposal caller now = Except.error e) ∧
    Voting.cast_vote_callback s.proposal (some o) now =
      Except.ok ({ s.proposal with voteState := o.ciphertexts, nonce := o.nonce },
        [Voting.Event.voteCast s.proposal.id now s.proposal.voterCount]) := by
  refine ⟨?_, ?_, rfl⟩
  · unfold Voting.cast_vote
    split_ifs <;> exact ⟨_, rfl⟩
  · unfold Voting.reveal_results
    split_ifs <;> exact ⟨_, rfl⟩

/-- C4 (amended) witness: on the finalized sample proposal, both submissions
fail while a verified vote-callback still overwrites the tally and nonce. -/
theorem claim_C4_finalized_blocks_submissions_not_callbacks_witness :
    (∃ e, Voting.cast_vote
      { Voting.sampleProposal with isFinalized := true } [] 42 0 =
      Except.error e) ∧
    (∃ e, Voting.reveal_results
      { Voting.sampleProposal with isFinalized := true } 7 0 =
      Except.error e) ∧
    Voting.cast_vote_callback
      { Voting.sampleProposal with isFinalized := true }
      (some { ciphertexts := [9, 9, 9, 9, 9], nonce := 7 }) 0 =
      Except.ok ({ Voting.sampleProposal with
          isFinalized := true, voteState := [9, 9, 9, 9, 9], nonce := 7 },
        [Voting.Event.voteCast 1 0 0]) :=
  claim_C4_finalized_blocks_submissions_not_callbacks
    { proposal := { Voting.sampleProposal with isFinalized := true },
      voterRecords := [], pending := [] }
    42 7 0 { ciphertexts := [9, 9, 9, 9, 9], nonce := 7 } rfl
